import Mathlib

/-!
# Shallow embedding of the e-contactpro Flask application (src/app.py)

The application is a CRUD web app over three SQL tables (`profils`, `liens`,
`analytics`).  We embed the database as lists of records, each route handler
as a function on that state, and the per-caller Flask session as a list of
unlocked profile ids.  Password hashing (`generate_password_hash` /
`check_password_hash`) is kept abstract: operations that hash or check a
password take the hashing or checking function as a parameter.

Strings are Lean `String`s; Python regex/`str` operations used by the code
(`str.lower`, `re.sub`, `str.strip`, `str.startswith`) are modelled on the
underlying character lists.
-/

namespace EContactPro

/-- `[a-z0-9]` test used by `generate_slug`'s regex character class. -/
def slugCharOk (c : Char) : Bool :=
  (97 ≤ c.toNat && c.toNat ≤ 122) || (48 ≤ c.toNat && c.toNat ≤ 57)

/-- `re.sub(r'[^a-z0-9]+', '-', s)`: every maximal run of characters outside
`[a-z0-9]` is replaced by a single `'-'`.  The flag records whether the
previous character was part of such a run, so only the run's first character
emits the hyphen. -/
def subBadAux : Bool → List Char → List Char
  | _, [] => []
  | inRun, c :: cs =>
    if slugCharOk c then c :: subBadAux false cs
    else if inRun then subBadAux true cs
    else '-' :: subBadAux true cs

def subBadRuns (l : List Char) : List Char := subBadAux false l

/-- Python `s.strip('-')`: remove leading and trailing `'-'` characters. -/
def stripDashes (l : List Char) : List Char :=
  ((l.dropWhile (· = '-')).reverse.dropWhile (· = '-')).reverse

/-- Python `str.strip()` with no argument: remove leading and trailing
whitespace (structural, unlike `String.trim`, so concrete instances reduce
in the kernel). -/
def pyStrip (s : String) : String :=
  String.mk (((s.data.dropWhile Char.isWhitespace).reverse.dropWhile
    Char.isWhitespace).reverse)

/-- `generate_slug` (src/app.py:137-140): lowercase the name, collapse runs of
non-`[a-z0-9]` characters to single hyphens, and strip outer hyphens. -/
def generate_slug (name : String) : String :=
  String.mk (stripDashes (subBadRuns (name.data.map Char.toLower)))

/-- The scheme test of `add_lien`/`update_lien`:
`url.startswith(('http://', 'https://', 'mailto:', 'tel:'))`. -/
def hasScheme (url : String) : Bool :=
  "http://".data.isPrefixOf url.data || "https://".data.isPrefixOf url.data ||
  "mailto:".data.isPrefixOf url.data || "tel:".data.isPrefixOf url.data

/-- URL normalization shared by `add_lien` (475-476) and `update_lien`
(503-504): prepend `https://` when no recognised scheme is present. -/
def normalize_url (url : String) : String :=
  if hasScheme url then url else String.mk ("https://".data ++ url.data)

/-- `validate_email`'s local-part character class `[a-zA-Z0-9._%+-]`. -/
def emailLocalChar (c : Char) : Bool :=
  c.isAlphanum || c = '.' || c = '_' || c = '%' || c = '+' || c = '-'

/-- `validate_email`'s domain character class `[a-zA-Z0-9.-]`. -/
def emailDomChar (c : Char) : Bool :=
  c.isAlphanum || c = '.' || c = '-'

/-- Match of `[a-zA-Z0-9.-]+\.[a-zA-Z]{2,}$` against the part after `'@'`:
some split at a `'.'` leaves a nonempty domain-class prefix and an all-alpha
suffix of length at least 2. -/
def emailDomainOk (rest : List Char) : Bool :=
  rest.all emailDomChar &&
    (List.range rest.length).any (fun i =>
      decide (1 ≤ i) && rest.getD i ' ' = '.' &&
      decide (i + 3 ≤ rest.length) && (rest.drop (i + 1)).all Char.isAlpha)

/-- `validate_email` (src/app.py:127-130): empty is accepted; otherwise the
string must match `^[a-zA-Z0-9._%+-]+@[a-zA-Z0-9.-]+\.[a-zA-Z]{2,}$`. -/
def validate_email (email : String) : Bool :=
  if email.isEmpty then true
  else
    let l := email.data.takeWhile (· ≠ '@')
    let r := email.data.dropWhile (· ≠ '@')
    match r with
    | '@' :: rest => !l.isEmpty && l.all emailLocalChar && emailDomainOk rest
    | _ => false

/-- `validate_phone` (src/app.py:132-135): empty accepted; otherwise the string
with spaces and hyphens removed must match `^\+?1?\d{9,15}$`. -/
def validate_phone (phone : String) : Bool :=
  if phone.isEmpty then true
  else
    let cleaned := phone.data.filter (fun c => c ≠ ' ' && c ≠ '-')
    let l1 := if cleaned.headD ' ' = '+' then cleaned.tail else cleaned
    let digits_9_15 : List Char → Bool := fun l =>
      l.all Char.isDigit && decide (9 ≤ l.length) && decide (l.length ≤ 15)
    digits_9_15 l1 || (l1.headD ' ' = '1' && digits_9_15 l1.tail)

/-- `validate_hex_color` (src/app.py:122-125):
`^#([A-Fa-f0-9]{6}|[A-Fa-f0-9]{3})$`. -/
def validate_hex_color (color : String) : Bool :=
  match color.data with
  | '#' :: rest =>
      rest.all (fun c => c.isDigit || ('a' ≤ c && c ≤ 'f') || ('A' ≤ c && c ≤ 'F')) &&
      (rest.length = 6 || rest.length = 3)
  | _ => false

/-! ## Data model

The three SQLAlchemy models, restricted to the columns the verified routes
read or write.  Display-only columns (colors, photo path and focal position,
timestamps) and the analytics timestamp are omitted: no modelled route's
control flow depends on them.  Primary keys are `Nat`s chosen by the caller
(SQLite autoincrement). -/

/-- `Profil` (src/app.py:36-83). -/
structure Profil where
  id : Nat
  slug : String
  nom : String
  titre : String
  biographie : String
  email : String
  telephone : String
  theme : String
  animations : Bool
  layout : String
  template : String
  is_protected : Bool
  profil_password : Option String
  view_count : Nat
  webhook_url : Option String
deriving Repr, DecidableEq

/-- `Lien` (src/app.py:86-99). -/
structure Lien where
  id : Nat
  profil_id : Nat
  type_lien : String
  nom : String
  url : String
  link_order : Nat
  click_count : Nat
deriving Repr, DecidableEq

/-- `Analytics` (src/app.py:102-114). -/
structure Analytics where
  profil_id : Nat
  lien_id : Option Nat
  event_type : String
  ip_address : String
  user_agent : String
deriving Repr, DecidableEq

/-- The persisted database: the three tables as lists of rows.  `analytics`
is append-only except for the profile-delete cascade. -/
structure DB where
  profils : List Profil
  liens : List Lien
  analytics : List Analytics
deriving Repr, DecidableEq

def emptyDB : DB := ⟨[], [], []⟩

/-! ## Webhook notifier -/

/-- Possible outcomes of the outbound `requests.post` call, supplied by the
environment. -/
inductive WebhookOutcome
  | delivered (status : Nat)
  | timeout
  | connectionError
  | raised (msg : String)
deriving Repr, DecidableEq

/-- The `requests.post(profil.webhook_url, ...)` call of `send_webhook`:
raises on timeout, connection error or any other exception, returns the HTTP
status otherwise (non-2xx statuses do not raise). -/
def webhookPost (outcome : WebhookOutcome) : Except String Nat :=
  match outcome with
  | .delivered s => .ok s
  | .timeout => .error "timeout"
  | .connectionError => .error "connection error"
  | .raised m => .error m

/-- `send_webhook` (src/app.py:150-165): no-op when the profile has no
configured webhook URL; otherwise attempt the POST inside
`try ... except Exception`, so the only observable effect is an optional
logged error line — no exception ever escapes. -/
def send_webhook (p : Profil) (event : String) (outcome : WebhookOutcome) :
    Option String :=
  match p.webhook_url with
  | none => none
  | some _ =>
    match event, webhookPost outcome with
    | _, .ok _ => none
    | _, .error e => some ("Webhook error: " ++ e)

/-! ## Public routes -/

inductive PageResult
  | notFound
  | redirectUnlock
  | rendered
deriving Repr, DecidableEq

def viewEvent (pid : Nat) : Analytics :=
  { profil_id := pid, lien_id := none, event_type := "view",
    ip_address := "", user_agent := "" }

def clickEvent (pid lid : Nat) (ip ua : String) : Analytics :=
  { profil_id := pid, lien_id := some lid, event_type := "click",
    ip_address := ip, user_agent := ua }

/-- `profil_public` (src/app.py:176-196).  `sess` is the set of profile ids
`i` for which the caller's session has `profil_<i>_unlocked = True`.  A
protected profile whose id is not in `sess` redirects to the unlock page
without touching the database; otherwise one `view` event is appended. -/
def profil_public (slug : String) (sess : List Nat) (db : DB) : DB × PageResult :=
  match db.profils.find? (fun p => p.slug == slug) with
  | none => (db, .notFound)
  | some p =>
    if p.is_protected && !(sess.contains p.id) then (db, .redirectUnlock)
    else ({ db with analytics := db.analytics ++ [viewEvent p.id] }, .rendered)

/-- `unlock_profil`, POST branch (src/app.py:198-214).  `check` models
`check_password_hash`.  The database is never modified; the session gains the
profile's id exactly when a password hash is stored (`profil.profil_password`
truthy) and the check succeeds.  Returns the new session. -/
def unlock_profil (check : String → String → Bool) (slug password : String)
    (sess : List Nat) (db : DB) : List Nat :=
  match db.profils.find? (fun p => p.slug == slug) with
  | none => sess
  | some p =>
    if !p.is_protected then sess
    else
      match p.profil_password with
      | some h => if check h password then p.id :: sess else sess
      | none => sess

/-- `track_click` (src/app.py:216-236): look up the link (404 → `none`),
append one `click` event and bump the link's `click_count` in one commit.
Also returns the owning profile (`lien.profil`), the target of the
`link_clicked` webhook sent after the commit. -/
def track_click (lien_id : Nat) (ip ua : String) (db : DB) :
    Option (DB × Option Profil) :=
  match db.liens.find? (fun l => l.id == lien_id) with
  | none => none
  | some lien =>
    some ({ db with
             analytics := db.analytics ++ [clickEvent lien.profil_id lien_id ip ua],
             liens := db.liens.map (fun l =>
               if l.id == lien_id then { l with click_count := l.click_count + 1 }
               else l) },
          db.profils.find? (fun p => p.id == lien.profil_id))

/-! ## Admin routes — profiles

Each form structure carries the raw form values; a field is `Option String`
when the handler's `request.form.get` falls back to the record's current
value.  A handler that flashes a validation error returns before
`db.session.commit()`, so the database is unchanged on that path. -/

structure ProfilForm where
  nom : String
  titre : String
  biographie : String
  email : String
  telephone : String
  template : String
deriving Repr, DecidableEq

/-- `create_profil`, POST branch (src/app.py:336-384).  Returns the new
database and, on success, the created profile (the `profile_created` webhook
target). -/
def create_profil (newId : Nat) (form : ProfilForm) (db : DB) :
    DB × Option Profil :=
  let nom := pyStrip form.nom
  if nom.isEmpty then (db, none)
  else
    let email := pyStrip form.email
    if !email.isEmpty && !validate_email email then (db, none)
    else
      let telephone := pyStrip form.telephone
      if !telephone.isEmpty && !validate_phone telephone then (db, none)
      else
        let slug := generate_slug nom
        if (db.profils.find? (fun p => p.slug == slug)).isSome then (db, none)
        else
          let p : Profil :=
            { id := newId, slug := slug, nom := nom, titre := pyStrip form.titre,
              biographie := pyStrip form.biographie, email := email,
              telephone := telephone, theme := "light", animations := true,
              layout := "vertical", template := form.template,
              is_protected := false, profil_password := none,
              view_count := 0, webhook_url := none }
          ({ db with profils := db.profils ++ [p] }, some p)

structure EditForm where
  nom : Option String
  titre : String
  biographie : String
  email : String
  telephone : String
deriving Repr, DecidableEq

/-- `edit_profil`, POST branch (src/app.py:386-440).  On a validation error
the handler re-renders without committing, so the store is unchanged; photo
and color fields are omitted (they never fail validation fatally).  Returns
the updated profile (the `profile_updated` webhook target) on success. -/
def edit_profil (slug : String) (form : EditForm) (db : DB) :
    DB × Option Profil :=
  match db.profils.find? (fun p => p.slug == slug) with
  | none => (db, none)
  | some p =>
    let email := pyStrip form.email
    if !email.isEmpty && !validate_email email then (db, none)
    else
      let telephone := pyStrip form.telephone
      if !telephone.isEmpty && !validate_phone telephone then (db, none)
      else
        let p' := { p with nom := pyStrip (form.nom.getD p.nom),
                           titre := pyStrip form.titre,
                           biographie := pyStrip form.biographie,
                           email := email, telephone := telephone }
        ({ db with profils := db.profils.map (fun q => if q.id == p.id then p' else q) },
         some p')

/-- `delete_profil` (src/app.py:442-452): the `cascade='all, delete-orphan'`
relations delete the profile's links and analytics events with it. -/
def delete_profil (slug : String) (db : DB) : DB :=
  match db.profils.find? (fun p => p.slug == slug) with
  | none => db
  | some p =>
    { profils := db.profils.filter (fun q => !(q.id == p.id)),
      liens := db.liens.filter (fun l => !(l.profil_id == p.id)),
      analytics := db.analytics.filter (fun a => !(a.profil_id == p.id)) }

/-! ## Admin routes — links -/

structure LienForm where
  type_lien : String
  nom : Option String
  url : String
deriving Repr, DecidableEq

/-- `add_lien` (src/app.py:465-491): 404 when the profile id is unknown;
otherwise the URL is normalized and the link appended at
`link_order = count of the profile's links`.  Returns the owning profile
(the `link_added` webhook target) on success. -/
def add_lien (profil_id newId : Nat) (form : LienForm) (db : DB) :
    DB × Option Profil :=
  match db.profils.find? (fun p => p.id == profil_id) with
  | none => (db, none)
  | some prof =>
    let t := pyStrip form.type_lien
    let u := normalize_url (pyStrip form.url)
    let n := pyStrip (form.nom.getD t)
    let l : Lien :=
      { id := newId, profil_id := profil_id, type_lien := t, nom := n, url := u,
        link_order := (db.liens.filter (fun l => l.profil_id == profil_id)).length,
        click_count := 0 }
    ({ db with liens := db.liens ++ [l] }, some prof)

structure UpdateLienForm where
  nom : Option String
  type_lien : Option String
  url : Option String
deriving Repr, DecidableEq

/-- `update_lien` (src/app.py:493-510): 404 when the link id is unknown;
otherwise name, category and normalized URL are rewritten in place. -/
def update_lien (lien_id : Nat) (form : UpdateLienForm) (db : DB) : DB :=
  match db.liens.find? (fun l => l.id == lien_id) with
  | none => db
  | some lien =>
    let n := pyStrip (form.nom.getD lien.nom)
    let t := pyStrip (form.type_lien.getD lien.type_lien)
    let u := normalize_url (pyStrip (form.url.getD lien.url))
    { db with liens := db.liens.map (fun l =>
        if l.id == lien_id then { l with nom := n, type_lien := t, url := u }
        else l) }

/-- `delete_lien` (src/app.py:512-522): remove the row, nothing else — in
particular no renumbering of the surviving links' `link_order`. -/
def delete_lien (lien_id : Nat) (db : DB) : DB :=
  { db with liens := db.liens.filter (fun l => !(l.id == lien_id)) }

/-- One iteration of the `reorder_liens` loop (src/app.py:531-534):
`Lien.query.get(link_id)` finds a row by primary key; when present its
`link_order` becomes the enumeration index, when absent the id is skipped. -/
def reorderStep (liens : List Lien) (p : Nat × Nat) : List Lien :=
  liens.map (fun l => if l.id == p.2 then { l with link_order := p.1 } else l)

/-- `reorder_liens` (src/app.py:524-537): `for index, link_id in
enumerate(link_ids)` assigns `link_order := index` to every existing link
whose id occurs in the posted list.  The route takes no profile argument. -/
def reorder_liens (link_ids : List Nat) (db : DB) : DB :=
  { db with liens := link_ids.enum.foldl reorderStep db.liens }

/-! ## Admin routes — settings -/

structure SettingsForm where
  theme : String
  animations_on : Bool
  layout : String
  template : String
  webhook_url : String
  is_protected_on : Bool
  profil_password : String
deriving Repr, DecidableEq

/-- `parametres_profil`, POST branch (src/app.py:542-570).  `hash` models
`generate_password_hash`.  Enabling protection stores a new hash only when a
password was submitted — otherwise the previous `profil_password` (possibly
`None`) is kept; disabling protection clears the hash.  Returns the updated
profile (the `settings_updated` webhook target). -/
def parametres_profil (hash : String → String) (slug : String)
    (form : SettingsForm) (db : DB) : DB × Option Profil :=
  match db.profils.find? (fun p => p.slug == slug) with
  | none => (db, none)
  | some p =>
    let p1 := { p with theme := form.theme, animations := form.animations_on,
                       layout := form.layout, template := form.template,
                       webhook_url := if (pyStrip form.webhook_url).isEmpty then none
                                      else some (pyStrip form.webhook_url) }
    let p' := if form.is_protected_on then
                { p1 with is_protected := true,
                          profil_password := if form.profil_password.isEmpty
                                             then p1.profil_password
                                             else some (hash form.profil_password) }
              else { p1 with is_protected := false, profil_password := none }
    ({ db with profils := db.profils.map (fun q => if q.id == p.id then p' else q) },
     some p')

/-! ## Aggregates (analytics_profil, src/app.py:586-628) -/

/-- Displayed total views: `Analytics.query.filter_by(profil_id=...,
event_type='view').count()` (src/app.py:593). -/
def analytics_view_count (pid : Nat) (db : DB) : Nat :=
  (db.analytics.filter (fun a => a.profil_id == pid && a.event_type == "view")).length

/-- Displayed per-link clicks: `Analytics.query.filter_by(lien_id=...,
event_type='click').count()` (src/app.py:598). -/
def analytics_click_count (lid : Nat) (db : DB) : Nat :=
  (db.analytics.filter (fun a => a.lien_id == some lid && a.event_type == "click")).length

/-! ## The full route surface over the database -/

/-- Every route that can touch the persisted store, with its request data.
Read-only routes (index, QR, vCard, PDF, the admin GET pages, analytics)
run no UPDATE/INSERT/DELETE and are represented by their absence;
`unlockAttempt` writes only to the caller's session. -/
inductive Op
  | viewPublic (slug : String) (sess : List Nat)
  | unlockAttempt (slug password : String)
  | click (lien_id : Nat) (ip ua : String)
  | createProfil (newId : Nat) (form : ProfilForm)
  | editProfil (slug : String) (form : EditForm)
  | deleteProfil (slug : String)
  | addLien (profil_id newId : Nat) (form : LienForm)
  | updateLien (lien_id : Nat) (form : UpdateLienForm)
  | deleteLien (lien_id : Nat)
  | reorder (link_ids : List Nat)
  | settings (slug : String) (form : SettingsForm)
deriving Repr

/-- Effect of one request on the database (sessions and webhooks aside). -/
def applyOp (hash : String → String) (op : Op) (db : DB) : DB :=
  match op with
  | .viewPublic slug sess => (profil_public slug sess db).1
  | .unlockAttempt _ _ => db
  | .click lid ip ua => ((track_click lid ip ua db).map Prod.fst).getD db
  | .createProfil newId form => (create_profil newId form db).1
  | .editProfil slug form => (edit_profil slug form db).1
  | .deleteProfil slug => delete_profil slug db
  | .addLien pid newId form => (add_lien pid newId form db).1
  | .updateLien lid form => update_lien lid form db
  | .deleteLien lid => delete_lien lid db
  | .reorder ids => reorder_liens ids db
  | .settings slug form => (parametres_profil hash slug form db).1

/-- Fire the webhook the route sends after its commit, if any. -/
def runWebhook (outcome : WebhookOutcome) (event : String) :
    Option Profil → Option String
  | some p => send_webhook p event outcome
  | none => none

/-- Effect of one request including the post-commit webhook call, given the
delivery outcome the environment chooses.  Second component: the logged
webhook error, if any. -/
def applyOpFull (hash : String → String) (outcome : WebhookOutcome) (op : Op)
    (db : DB) : DB × Option String :=
  match op with
  | .createProfil newId form =>
      let r := create_profil newId form db
      (r.1, runWebhook outcome "profile_created" r.2)
  | .editProfil slug form =>
      let r := edit_profil slug form db
      (r.1, runWebhook outcome "profile_updated" r.2)
  | .addLien pid newId form =>
      let r := add_lien pid newId form db
      (r.1, runWebhook outcome "link_added" r.2)
  | .settings slug form =>
      let r := parametres_profil hash slug form db
      (r.1, runWebhook outcome "settings_updated" r.2)
  | .click lid ip ua =>
      match track_click lid ip ua db with
      | some (db', prof) => (db', runWebhook outcome "link_clicked" prof)
      | none => (db, none)
  | op => (applyOp hash op db, none)

/-! ## Concrete databases for witnesses and counterexamples -/

/-- A concrete profile with the schema's default values. -/
def profilA : Profil :=
  { id := 1, slug := "p1", nom := "P1", titre := "", biographie := "",
    email := "", telephone := "", theme := "light", animations := true,
    layout := "vertical", template := "modern", is_protected := false,
    profil_password := none, view_count := 0, webhook_url := none }

/-- Two profiles with one link each; link 2 belongs to profile 2 and has
order 5. -/
def db6 : DB :=
  { profils := [profilA, { profilA with id := 2, slug := "p2" }],
    liens := [{ id := 1, profil_id := 1, type_lien := "site", nom := "A",
                url := "https://a", link_order := 0, click_count := 0 },
              { id := 2, profil_id := 2, type_lien := "site", nom := "B",
                url := "https://b", link_order := 5, click_count := 0 }],
    analytics := [] }

/-- One profile with two links densely ordered 0, 1. -/
def db2 : DB :=
  { profils := [profilA],
    liens := [{ id := 1, profil_id := 1, type_lien := "site", nom := "A",
                url := "https://a", link_order := 0, click_count := 0 },
              { id := 2, profil_id := 1, type_lien := "site", nom := "B",
                url := "https://b", link_order := 1, click_count := 0 }],
    analytics := [] }

/-- What one posted id list does to a link, when the list has no duplicate
ids: a link whose id occurs in the list gets the id's position as its order,
any other link is untouched. -/
def reorderedLien (link_ids : List Nat) (l : Lien) : Lien :=
  if l.id ∈ link_ids then { l with link_order := link_ids.indexOf l.id }
  else l

/-- The link `add_lien 1 10 ⟨"site", none, "example.com"⟩ db6` appends. -/
def lien10 : Lien :=
  { id := 10, profil_id := 1, type_lien := "site", nom := "site",
    url := "https://example.com", link_order := 1, click_count := 0 }

/-- The link row of `db2` with id 2 after one click. -/
def lien2clicked : Lien :=
  { id := 2, profil_id := 1, type_lien := "site", nom := "B",
    url := "https://b", link_order := 1, click_count := 1 }

/-- The protected-without-hash profile used in the C9 witness. -/
def p9 : Profil := { profilA with id := 9, slug := "locked", is_protected := true }

def db9 : DB := { profils := [p9], liens := [], analytics := [] }

/-- Profile 1 with three links for the C1 witness. -/
def db1 : DB :=
  { profils := [profilA],
    liens := [⟨1, 1, "a", "A", "https://a", 0, 0⟩,
              ⟨2, 1, "b", "B", "https://b", 1, 0⟩,
              ⟨3, 1, "c", "C", "https://c", 2, 0⟩],
    analytics := [] }

/-- One request a caller can issue against the public profile routes:
viewing the profile page, or POSTing a password to the unlock form. -/
inductive PubAction
  | access (slug : String)
  | unlock (slug : String) (password : String)
deriving Repr

/-- Effect of one public request on the caller's session and the store. -/
def pubStep (check : String → String → Bool) :
    List Nat × DB → PubAction → List Nat × DB
  | (sess, db), .access slug => (sess, (profil_public slug sess db).1)
  | (sess, db), .unlock slug pw => (unlock_profil check slug pw sess db, db)

/-- A sequence of public requests from one caller. -/
def runPub (check : String → String → Bool) (s : List Nat × DB)
    (as : List PubAction) : List Nat × DB :=
  as.foldl (pubStep check) s

/-- The protected profile (with a stored hash) of the C5 witness. -/
def p5 : Profil :=
  { profilA with id := 7, slug := "sec", is_protected := true,
                 profil_password := some "hp" }

def db5 : DB := { profils := [p5], liens := [], analytics := [] }

/-- The profile `create_profil 5 ⟨"Jane", "", "", "", "", "modern"⟩` adds. -/
def createdJane : Profil :=
  { id := 5, slug := "jane", nom := "Jane", titre := "", biographie := "",
    email := "", telephone := "", theme := "light", animations := true,
    layout := "vertical", template := "modern", is_protected := false,
    profil_password := none, view_count := 0, webhook_url := none }

/-! ## Lemmas about the slug resolver -/

lemma slugCharOk_ne_dash {c : Char} (h : slugCharOk c = true) : c ≠ '-' := by
  intro he; subst he; exact absurd h (by decide)

lemma mem_subBadAux {c : Char} (hc : slugCharOk c = true) :
    ∀ (b : Bool) (l : List Char), c ∈ l → c ∈ subBadAux b l := by
  intro b l
  induction l generalizing b with
  | nil => intro h; cases h
  | cons d t ih =>
    intro hm
    rcases List.mem_cons.mp hm with he | ht
    · subst he
      simp [subBadAux, hc]
    · cases hd : slugCharOk d
      · cases b
        · simp only [subBadAux, hd, Bool.false_eq_true, if_false, List.mem_cons]
          exact Or.inr (ih true ht)
        · simp only [subBadAux, hd, Bool.false_eq_true, if_false, if_true]
          exact ih true ht
      · simp only [subBadAux, hd, if_true, List.mem_cons]
        exact Or.inr (ih false ht)

lemma subBadAux_chars :
    ∀ (b : Bool) (l : List Char), ∀ c ∈ subBadAux b l,
      slugCharOk c = true ∨ c = '-' := by
  intro b l
  induction l generalizing b with
  | nil => intro c hc; cases hc
  | cons d t ih =>
    intro c hc
    cases hd : slugCharOk d
    · cases b
      · simp only [subBadAux, hd, Bool.false_eq_true, if_false, List.mem_cons] at hc
        rcases hc with he | ht
        · exact Or.inr he
        · exact ih true c ht
      · simp only [subBadAux, hd, Bool.false_eq_true, if_false, if_true] at hc
        exact ih true c hc
    · simp only [subBadAux, hd, if_true, List.mem_cons] at hc
      rcases hc with he | ht
      · exact Or.inl (he ▸ hd)
      · exact ih false c ht

lemma subBadAux_all_dash :
    ∀ (b : Bool) (l : List Char), (∀ c ∈ l, slugCharOk c = false) →
      ∀ c ∈ subBadAux b l, c = '-' := by
  intro b l
  induction l generalizing b with
  | nil => intro _ c hc; cases hc
  | cons d t ih =>
    intro hall c hc
    have hd : slugCharOk d = false := hall d (List.mem_cons_self _ _)
    have hall' : ∀ c ∈ t, slugCharOk c = false :=
      fun c hc => hall c (List.mem_cons_of_mem _ hc)
    cases b
    · simp only [subBadAux, hd, Bool.false_eq_true, if_false, List.mem_cons] at hc
      rcases hc with he | ht
      · exact he
      · exact ih true hall' c ht
    · simp only [subBadAux, hd, Bool.false_eq_true, if_false, if_true] at hc
      exact ih true hall' c hc

lemma mem_dropWhile_dash {c : Char} (hne : c ≠ '-') {l : List Char}
    (hm : c ∈ l) : c ∈ l.dropWhile (· = '-') := by
  have hsplit := List.takeWhile_append_dropWhile (fun x => decide (x = '-')) l
  rcases List.mem_append.mp (hsplit ▸ hm) with h | h
  · have := List.mem_takeWhile_imp h
    exact absurd (of_decide_eq_true this) hne
  · exact h

lemma mem_stripDashes {c : Char} (hne : c ≠ '-') {l : List Char}
    (hm : c ∈ l) : c ∈ stripDashes l := by
  unfold stripDashes
  have h1 : c ∈ l.dropWhile (· = '-') := mem_dropWhile_dash hne hm
  have h2 : c ∈ (l.dropWhile (· = '-')).reverse := List.mem_reverse.mpr h1
  have h3 := mem_dropWhile_dash hne h2
  exact List.mem_reverse.mpr h3

lemma stripDashes_subset {l : List Char} : ∀ c ∈ stripDashes l, c ∈ l := by
  intro c hc
  unfold stripDashes at hc
  have h1 := List.mem_reverse.mp hc
  have h2 := (List.dropWhile_suffix (l := (l.dropWhile (· = '-')).reverse)
    (· = '-')).mem h1
  have h3 := List.mem_reverse.mp h2
  exact (List.dropWhile_suffix (· = '-')).mem h3

lemma stripDashes_all_dash {l : List Char} (h : ∀ c ∈ l, c = '-') :
    stripDashes l = [] := by
  unfold stripDashes
  have h1 : l.dropWhile (· = '-') = [] :=
    List.dropWhile_eq_nil_iff.mpr (fun x hx => by simp [h x hx])
  simp [h1]

/-- C3 counterexample: on empty and whitespace-only display names
`generate_slug` returns the empty string — not a non-empty `[a-z0-9-]+`
token and not a `default-<random8>` fallback, which does not exist in the
code. -/
theorem generate_slug_whitespace_gives_empty :
    generate_slug "   " = "" ∧ generate_slug "" = "" := by decide

/-- C3 (amended): when the lowercased display name contains at least one
`[a-z0-9]` character, `generate_slug` returns a non-empty string all of whose
characters are in `[a-z0-9-]`; a name with no such character (in particular
an empty or whitespace-only name) yields the empty string — there is no
random fallback. -/
theorem generate_slug_amended (name : String) :
    ((∃ c ∈ name.data.map Char.toLower, slugCharOk c = true) →
      generate_slug name ≠ "" ∧
      ∀ c ∈ (generate_slug name).data, slugCharOk c = true ∨ c = '-') ∧
    ((∀ c ∈ name.data.map Char.toLower, slugCharOk c = false) →
      generate_slug name = "") := by
  constructor
  · rintro ⟨c, hcmem, hok⟩
    have h1 : c ∈ subBadRuns (name.data.map Char.toLower) :=
      mem_subBadAux hok false _ hcmem
    have h2 : c ∈ stripDashes (subBadRuns (name.data.map Char.toLower)) :=
      mem_stripDashes (slugCharOk_ne_dash hok) h1
    constructor
    · intro he
      have : (generate_slug name).data = [] := by rw [he]
      rw [show (generate_slug name).data
            = stripDashes (subBadRuns (name.data.map Char.toLower)) from rfl] at this
      rw [this] at h2
      cases h2
    · intro d hd
      have hd' : d ∈ subBadRuns (name.data.map Char.toLower) :=
        stripDashes_subset d hd
      exact subBadAux_chars false _ d hd'
  · intro hall
    have h1 : ∀ c ∈ subBadRuns (name.data.map Char.toLower), c = '-' :=
      subBadAux_all_dash false _ hall
    have h2 := stripDashes_all_dash h1
    show String.mk _ = ""
    rw [h2]

/-- Witness for the amended C3 at concrete inputs. -/
theorem generate_slug_amended_witness :
    generate_slug "Jane Doe" ≠ "" ∧
    (∀ c ∈ (generate_slug "Jane Doe").data, slugCharOk c = true ∨ c = '-') ∧
    generate_slug "???" = "" := by
  have h1 := (generate_slug_amended "Jane Doe").1 (by decide)
  have h2 := (generate_slug_amended "???").2 (by decide)
  exact ⟨h1.1, h1.2, h2⟩

/-- C2: the code evaluated at the failing input.  `db2`'s links are densely
ordered `0, 1`; deleting link 1 leaves the surviving link still carrying
order 1, not the dense `0..0` range the density invariant requires —
`delete_lien` removes the row without renumbering the survivors. -/
theorem delete_lien_leaves_gap :
    db2.liens.map Lien.link_order = [0, 1] ∧
    (delete_lien 1 db2).liens.map Lien.link_order = [1] := by decide

/-! ## Lemmas about reorder_liens -/

lemma foldl_reorderStep_eq_map :
    ∀ (xs : List Nat), xs.Nodup → ∀ (n : Nat) (liens : List Lien),
      (List.enumFrom n xs).foldl reorderStep liens =
        liens.map (fun l =>
          if l.id ∈ xs then { l with link_order := n + List.indexOf l.id xs }
          else l) := by
  intro xs
  induction xs with
  | nil =>
    intro _ n liens
    simp
  | cons x t ih =>
    intro hnd n liens
    have hx : x ∉ t := (List.nodup_cons.mp hnd).1
    have hnd' : t.Nodup := (List.nodup_cons.mp hnd).2
    rw [List.enumFrom_cons, List.foldl_cons, ih hnd' (n + 1) (reorderStep liens (n, x))]
    show (liens.map fun l =>
        if l.id == x then { l with link_order := n } else l).map _ = _
    rw [List.map_map]
    refine List.map_congr_left (fun l _ => ?_)
    by_cases hlx : l.id = x
    · have hbeq : (l.id == x) = true := beq_iff_eq.mpr hlx
      simp only [Function.comp_apply, hbeq, if_true]
      have hnotmem : ({ l with link_order := n } : Lien).id ∉ t := by
        simpa [hlx] using hx
      simp only [hnotmem, if_false]
      have hmem : l.id ∈ x :: t := by rw [hlx]; exact List.mem_cons_self _ _
      rw [if_pos hmem, hlx, List.indexOf_cons_self, Nat.add_zero]
    · have hbeq : (l.id == x) = false := beq_eq_false_iff_ne.mpr hlx
      simp only [Function.comp_apply, hbeq, Bool.false_eq_true, if_false]
      by_cases hlt : l.id ∈ t
      · have hmem : l.id ∈ x :: t := List.mem_cons_of_mem _ hlt
        simp only [hlt, if_true, hmem]
        rw [List.indexOf_cons_ne _ (fun he => hlx he.symm)]
        have harith : n + 1 + List.indexOf l.id t
            = n + (List.indexOf l.id t).succ := by omega
        rw [harith]
      · have hmem : l.id ∉ x :: t := by
          intro hc
          rcases List.mem_cons.mp hc with he | ht
          · exact hlx he
          · exact hlt ht
        simp only [hlt, hmem, if_false]

lemma reorder_liens_eq_map (link_ids : List Nat) (db : DB)
    (hnd : link_ids.Nodup) :
    (reorder_liens link_ids db).liens = db.liens.map (reorderedLien link_ids) := by
  show (link_ids.enum.foldl reorderStep db.liens) = _
  rw [show link_ids.enum = List.enumFrom 0 link_ids from rfl,
      foldl_reorderStep_eq_map link_ids hnd 0 db.liens]
  refine List.map_congr_left (fun l _ => ?_)
  unfold reorderedLien
  by_cases h : l.id ∈ link_ids
  · simp [h]
  · simp [h]

lemma foldl_reorderStep_id :
    ∀ (ps : List (Nat × Nat)) (liens : List Lien),
      (∀ p ∈ ps, ∀ l ∈ liens, l.id ≠ p.2) →
      ps.foldl reorderStep liens = liens := by
  intro ps
  induction ps with
  | nil => intro liens _; rfl
  | cons p t ih =>
    intro liens h
    rw [List.foldl_cons]
    have hstep : reorderStep liens p = liens := by
      unfold reorderStep
      have hcong : ∀ l ∈ liens,
          (if l.id == p.2 then { l with link_order := p.1 } else l) = l :=
        fun l hl => by
          have : (l.id == p.2) = false :=
            beq_eq_false_iff_ne.mpr (h p (List.mem_cons_self _ _) l hl)
          simp [this]
      rw [List.map_congr_left hcong]
      simp
    rw [hstep]
    exact ih liens (fun q hq l hl => h q (List.mem_cons_of_mem _ hq) l hl)

/-- C6 counterexample: `POST /admin/liens/reorder` with `link_ids = [2]`
renumbers link 2 even though it belongs to profile 2, not the profile whose
management page issued the drag-and-drop: its order changes from 5 to 0.
The handler looks links up by bare primary key with no profile check. -/
theorem reorder_renumbers_foreign_link :
    (∀ l ∈ db6.liens, l.id = 2 → l.profil_id = 2 ∧ l.link_order = 5) ∧
    (∀ l ∈ (reorder_liens [2] db6).liens, l.id = 2 →
      l.profil_id = 2 ∧ l.link_order = 0) ∧
    (∃ l ∈ (reorder_liens [2] db6).liens, l.id = 2) := by decide

/-- C6 (amended): identifiers matching no existing link are ignored rather
than erroring, but every existing link whose id occurs in a duplicate-free
posted list — links of other profiles included — is renumbered to the id's
position in the list. -/
theorem reorder_ignores_only_unknown_ids (link_ids : List Nat) (db : DB) :
    ((∀ i ∈ link_ids, ∀ l ∈ db.liens, l.id ≠ i) →
      reorder_liens link_ids db = db) ∧
    (link_ids.Nodup →
      (reorder_liens link_ids db).liens = db.liens.map (reorderedLien link_ids)) := by
  constructor
  · intro h
    have hfold : link_ids.enum.foldl reorderStep db.liens = db.liens := by
      apply foldl_reorderStep_id
      intro p hp l hl
      have hp2 : p.2 ∈ link_ids := by
        have hsnd := List.enum_map_snd link_ids
        exact hsnd ▸ List.mem_map_of_mem Prod.snd hp
      exact h p.2 hp2 l hl
    show ({ db with liens := link_ids.enum.foldl reorderStep db.liens } : DB) = db
    rw [hfold]
  · intro hnd
    exact reorder_liens_eq_map link_ids db hnd

/-- Witness for the amended C6: id 99 matches no row and the call is a
no-op; id 2 exists (in another profile) and is renumbered to position 0. -/
theorem reorder_ignores_only_unknown_ids_witness :
    reorder_liens [99] db6 = db6 ∧
    (reorder_liens [2] db6).liens = db6.liens.map (reorderedLien [2]) :=
  ⟨(reorder_ignores_only_unknown_ids [99] db6).1 (by decide),
   (reorder_ignores_only_unknown_ids [2] db6).2 (by decide)⟩

/-! ## Lemmas about URL normalization and webhooks -/

lemma https_isPrefixOf (l : List Char) :
    "https://".data.isPrefixOf ("https://".data ++ l) = true :=
  List.isPrefixOf_iff_prefix.mpr (List.prefix_append _ _)

lemma hasScheme_normalize (url : String) : hasScheme (normalize_url url) = true := by
  unfold normalize_url
  cases h : hasScheme url
  · simp only [Bool.false_eq_true, if_false]
    unfold hasScheme
    have hp : "https://".data.isPrefixOf
        (String.mk ("https://".data ++ url.data)).data = true :=
      https_isPrefixOf url.data
    rw [hp]
    simp
  · simp [h]

/-- C7: every URL stored by `add_lien` or `update_lien` carries an explicit
scheme.  `normalize_url` passes URLs already starting with `http://`,
`https://`, `mailto:` or `tel:` through unchanged and prepends `https://`
to all others, and both handlers persist only normalized URLs: a link in
the post-state is either a pre-existing row or carries a recognised
scheme. -/
theorem stored_urls_carry_scheme :
    (∀ url, (hasScheme url = true → normalize_url url = url) ∧
      (hasScheme url = false →
        normalize_url url = String.mk ("https://".data ++ url.data)) ∧
      hasScheme (normalize_url url) = true) ∧
    (∀ pid newId form db, ∀ l ∈ (add_lien pid newId form db).1.liens,
      l ∈ db.liens ∨ hasScheme l.url = true) ∧
    (∀ lid form db, ∀ l ∈ (update_lien lid form db).liens,
      l ∈ db.liens ∨ hasScheme l.url = true) := by
  refine ⟨fun url => ⟨fun h => by simp [normalize_url, h],
      fun h => by simp [normalize_url, h], hasScheme_normalize url⟩, ?_, ?_⟩
  · intro pid newId form db l hl
    unfold add_lien at hl
    cases hfind : db.profils.find? (fun p => p.id == pid) with
    | none => rw [hfind] at hl; exact Or.inl hl
    | some prof =>
      rw [hfind] at hl
      simp only [List.mem_append, List.mem_singleton] at hl
      rcases hl with hmem | heq
      · exact Or.inl hmem
      · subst heq
        exact Or.inr (hasScheme_normalize _)
  · intro lid form db l hl
    unfold update_lien at hl
    cases hfind : db.liens.find? (fun l => l.id == lid) with
    | none => rw [hfind] at hl; exact Or.inl hl
    | some lien =>
      rw [hfind] at hl
      simp only [List.mem_map] at hl
      obtain ⟨x, hx, hfx⟩ := hl
      by_cases hid : (x.id == lid) = true
      · rw [if_pos hid] at hfx
        subst hfx
        exact Or.inr (hasScheme_normalize _)
      · rw [if_neg hid] at hfx
        subst hfx
        exact Or.inl hx

/-- Witness for C7 at concrete inputs: a scheme-less URL gains `https://`,
a `mailto:` URL passes through, and a freshly added link's URL carries a
scheme. -/
theorem stored_urls_carry_scheme_witness :
    normalize_url "example.com" = "https://example.com" ∧
    normalize_url "mailto:a@b.co" = "mailto:a@b.co" ∧
    (lien10 ∈ db6.liens ∨ hasScheme lien10.url = true) := by
  refine ⟨?_, ?_, ?_⟩
  · have h := (stored_urls_carry_scheme.1 "example.com").2.1 (by decide)
    rw [h]; decide
  · exact (stored_urls_carry_scheme.1 "mailto:a@b.co").1 (by decide)
  · exact stored_urls_carry_scheme.2.1 1 10 ⟨"site", none, "example.com"⟩ db6
      lien10 (by decide)

/-- C8: a route's committed state does not depend on how the post-commit
webhook delivery goes.  For every route and any two delivery outcomes
(success with any status, timeout, connection error, or a raised
exception), the resulting database is identical, and equals the database
produced by the route without its webhook call: `send_webhook` catches all
exceptions and returns at most a log line. -/
theorem webhook_outcome_never_affects_state (hash : String → String) (op : Op)
    (db : DB) (o₁ o₂ : WebhookOutcome) :
    (applyOpFull hash o₁ op db).1 = (applyOpFull hash o₂ op db).1 ∧
    (applyOpFull hash o₁ op db).1 = applyOp hash op db := by
  cases op
  case click lid ip ua =>
    cases h : track_click lid ip ua db with
    | none => simp [applyOpFull, applyOp, h]
    | some r =>
      obtain ⟨db', prof⟩ := r
      simp [applyOpFull, applyOp, h]
  all_goals exact ⟨rfl, rfl⟩

/-! ## Click tracking (C4) -/

/-- C4: when link `lien_id` exists (`find?` by primary key succeeds),
`track_click` commits, in one step, exactly one new `click` event
referencing the link together with a `click_count` bumped by exactly one;
the per-link click total of the event log and the stored counter therefore
move together, and nothing else (in particular no profile row) changes. -/
theorem track_click_atomic_increment (db : DB) (lien_id : Nat) (ip ua : String)
    (lien : Lien)
    (hfind : db.liens.find? (fun l => l.id == lien_id) = some lien) :
    ∃ db' prof, track_click lien_id ip ua db = some (db', prof) ∧
      db'.analytics = db.analytics ++ [clickEvent lien.profil_id lien_id ip ua] ∧
      analytics_click_count lien_id db' = analytics_click_count lien_id db + 1 ∧
      db'.liens.find? (fun l => l.id == lien_id) =
        some { lien with click_count := lien.click_count + 1 } ∧
      db'.profils = db.profils := by
  unfold track_click
  rw [hfind]
  refine ⟨_, _, rfl, rfl, ?_, ?_, rfl⟩
  · show analytics_click_count lien_id
      { db with analytics := db.analytics ++ [clickEvent lien.profil_id lien_id ip ua],
                liens := _ } = _
    simp [analytics_click_count, clickEvent, List.filter_append]
  · show (db.liens.map fun l =>
        if l.id == lien_id then { l with click_count := l.click_count + 1 }
        else l).find? (fun l => l.id == lien_id) = _
    rw [List.find?_map]
    have hcomp : ((fun l : Lien => l.id == lien_id) ∘ fun l =>
        if l.id == lien_id then { l with click_count := l.click_count + 1 }
        else l) = fun l : Lien => l.id == lien_id := by
      funext l
      by_cases he : l.id = lien_id
      · simp [he]
      · simp [he]
    rw [hcomp, hfind]
    have hl : (lien.id == lien_id) = true := by
      have hs := List.find?_some hfind
      simpa using hs
    have he : lien.id = lien_id := beq_iff_eq.mp hl
    simp [he]

/-- Witness for C4: clicking link 2 of `db2`. -/
theorem track_click_atomic_increment_witness :
    ∃ db' prof, track_click 2 "127.0.0.1" "UA" db2 = some (db', prof) ∧
      db'.analytics = db2.analytics ++ [clickEvent 1 2 "127.0.0.1" "UA"] ∧
      analytics_click_count 2 db' = analytics_click_count 2 db2 + 1 ∧
      db'.liens.find? (fun l => l.id == 2) = some lien2clicked ∧
      db'.profils = db2.profils :=
  track_click_atomic_increment db2 2 "127.0.0.1" "UA"
    ⟨2, 1, "site", "B", "https://b", 1, 0⟩ (by decide)

/-! ## Protection without a stored hash (C9) -/

/-- C9: a profile whose `is_protected` flag is set while `profil_password`
is `None` can never be unlocked: every POST to the unlock route leaves the
caller's session unchanged (the `if profil.profil_password and ...` guard
is falsy), so as long as the session lacks the profile's id every view of
the profile redirects to the unlock page without rendering or recording
anything; and submitting the settings form with protection enabled and an
empty password field on a profile with no stored hash produces exactly this
state. -/
theorem protected_without_hash_never_unlocks
    (check : String → String → Bool) (hash : String → String)
    (db : DB) (p : Profil) (slug : String)
    (hfind : db.profils.find? (fun q => q.slug == slug) = some p)
    (hprot : p.is_protected = true) (hpw : p.profil_password = none) :
    (∀ password sess, unlock_profil check slug password sess db = sess) ∧
    (∀ sess, p.id ∉ sess →
      profil_public slug sess db = (db, PageResult.redirectUnlock)) ∧
    (∀ form : SettingsForm, form.is_protected_on = true →
      form.profil_password = "" →
      ∀ q ∈ (parametres_profil hash slug form db).1.profils, q.id = p.id →
        q.is_protected = true ∧ q.profil_password = none) := by
  refine ⟨?_, ?_, ?_⟩
  · intro password sess
    simp [unlock_profil, hfind, hprot, hpw]
  · intro sess hns
    simp [profil_public, hfind, hprot, hns]
  · intro form hon hemptypw q hq hid
    simp only [parametres_profil, hfind] at hq
    simp only [List.mem_map] at hq
    obtain ⟨x, hx, hfx⟩ := hq
    by_cases hxid : (x.id == p.id) = true
    · rw [if_pos hxid] at hfx
      subst hfx
      constructor
      · simp [hon]
      · have hie : form.profil_password.isEmpty = true := by
          rw [hemptypw]; rfl
        simp [hon, hie, hpw]
    · rw [if_neg hxid] at hfx
      subst hfx
      exact absurd (beq_iff_eq.mpr hid) (by simpa using hxid)

/-- Witness for C9 on `db9`. -/
theorem protected_without_hash_never_unlocks_witness :
    (∀ password sess,
      unlock_profil (fun h pw => h == pw) "locked" password sess db9 = sess) ∧
    (∀ sess, 9 ∉ sess →
      profil_public "locked" sess db9 = (db9, PageResult.redirectUnlock)) ∧
    (∀ form : SettingsForm, form.is_protected_on = true →
      form.profil_password = "" →
      ∀ q ∈ (parametres_profil (fun s => s) "locked" form db9).1.profils,
        q.id = 9 → q.is_protected = true ∧ q.profil_password = none) :=
  protected_without_hash_never_unlocks (fun h pw => h == pw) (fun s => s)
    db9 p9 "locked" (by decide) (by decide) (by decide)

/-! ## Full-permutation reorder (C1) -/

lemma reorderedLien_id (li : List Nat) (l : Lien) :
    (reorderedLien li l).id = l.id := by
  unfold reorderedLien; split <;> rfl

lemma reorderedLien_profil (li : List Nat) (l : Lien) :
    (reorderedLien li l).profil_id = l.profil_id := by
  unfold reorderedLien; split <;> rfl

lemma map_indexOf_self {l : List Nat} (h : l.Nodup) :
    l.map (fun a => List.indexOf a l) = List.range l.length := by
  apply List.ext_get
  · simp
  · intro i h1 h2
    simp only [List.get_map, List.get_range]
    exact List.get_indexOf h _

/-- C1: posting a duplicate-free full permutation of profile `pid`'s link
ids to the reorder route renumbers each of the profile's links to its id's
position in the posted list, and afterwards the multiset of the profile's
order values is exactly `0..N-1`. -/
theorem reorder_full_permutation (db : DB) (pid : Nat) (link_ids : List Nat)
    (hnd : (db.liens.map Lien.id).Nodup)
    (hperm : link_ids.Perm
      ((db.liens.filter (fun l => l.profil_id == pid)).map Lien.id)) :
    (∀ l ∈ (reorder_liens link_ids db).liens, l.profil_id = pid →
      l.link_order = List.indexOf l.id link_ids) ∧
    (((reorder_liens link_ids db).liens.filter
        (fun l => l.profil_id == pid)).map Lien.link_order).Perm
      (List.range link_ids.length) := by
  have hndf : ((db.liens.filter (fun l => l.profil_id == pid)).map Lien.id).Nodup :=
    hnd.sublist (List.Sublist.map Lien.id (List.filter_sublist db.liens))
  have hndl : link_ids.Nodup := hperm.nodup_iff.mpr hndf
  have hmap := reorder_liens_eq_map link_ids db hndl
  have hidmem : ∀ l ∈ db.liens, l.profil_id = pid → l.id ∈ link_ids := by
    intro l hl hp
    apply hperm.mem_iff.mpr
    exact List.mem_map_of_mem Lien.id (List.mem_filter.mpr ⟨hl, by simp [hp]⟩)
  constructor
  · intro l hl hp
    rw [hmap] at hl
    obtain ⟨x, hx, hfx⟩ := List.mem_map.mp hl
    subst hfx
    rw [reorderedLien_id]
    have hpx : x.profil_id = pid := by rw [reorderedLien_profil] at hp; exact hp
    have hm : x.id ∈ link_ids := hidmem x hx hpx
    show (reorderedLien link_ids x).link_order = _
    unfold reorderedLien
    rw [if_pos hm]
  · rw [hmap, List.filter_map]
    have hpf : ((fun l : Lien => l.profil_id == pid) ∘ reorderedLien link_ids)
        = fun l : Lien => l.profil_id == pid := by
      funext l
      simp only [Function.comp_apply, reorderedLien_profil]
    rw [hpf, List.map_map]
    have hcong : ∀ l ∈ db.liens.filter (fun l => l.profil_id == pid),
        (Lien.link_order ∘ reorderedLien link_ids) l
          = (fun a => List.indexOf a link_ids) (Lien.id l) := by
      intro l hl
      obtain ⟨hmem, hbeq⟩ := List.mem_filter.mp hl
      have hp : l.profil_id = pid := by simpa using hbeq
      have hm : l.id ∈ link_ids := hidmem l hmem hp
      simp only [Function.comp_apply]
      unfold reorderedLien
      rw [if_pos hm]
    rw [List.map_congr_left hcong]
    show ((db.liens.filter (fun l => l.profil_id == pid)).map
      ((fun a => List.indexOf a link_ids) ∘ Lien.id)).Perm
      (List.range link_ids.length)
    rw [← List.map_map]
    have hstep := (hperm.map (fun a => List.indexOf a link_ids)).symm
    exact hstep.trans (map_indexOf_self hndl ▸ List.Perm.refl _)

/-- Witness for C1: reordering profile 1's links `[1,2,3]` as `[3,1,2]`. -/
theorem reorder_full_permutation_witness :
    (∀ l ∈ (reorder_liens [3, 1, 2] db1).liens, l.profil_id = 1 →
      l.link_order = List.indexOf l.id [3, 1, 2]) ∧
    (((reorder_liens [3, 1, 2] db1).liens.filter
        (fun l => l.profil_id == 1)).map Lien.link_order).Perm
      (List.range ([3, 1, 2] : List Nat).length) :=
  reorder_full_permutation db1 1 [3, 1, 2] (by decide) (by decide)

/-! ## Temporal behaviour of the public routes (C5) -/

lemma profil_public_profils (slug : String) (sess : List Nat) (db : DB) :
    (profil_public slug sess db).1.profils = db.profils := by
  unfold profil_public
  cases h : db.profils.find? (fun p => p.slug == slug) with
  | none => rfl
  | some p =>
    simp only []
    split <;> rfl

lemma pubStep_profils (check : String → String → Bool) (s : List Nat × DB)
    (a : PubAction) : (pubStep check s a).2.profils = s.2.profils := by
  obtain ⟨sess, db⟩ := s
  cases a with
  | access slug => exact profil_public_profils slug sess db
  | unlock slug pw => rfl

lemma pubStep_sess_mono (check : String → String → Bool) (s : List Nat × DB)
    (a : PubAction) : ∀ x ∈ s.1, x ∈ (pubStep check s a).1 := by
  obtain ⟨sess, db⟩ := s
  cases a with
  | access slug => intro x hx; exact hx
  | unlock slug pw =>
    intro x hx
    show x ∈ unlock_profil check slug pw sess db
    unfold unlock_profil
    cases h : db.profils.find? (fun p => p.slug == slug) with
    | none => exact hx
    | some p =>
      simp only []
      split
      · exact hx
      · split
        · split
          · exact List.mem_cons_of_mem _ hx
          · exact hx
        · exact hx

lemma runPub_sess_mono (check : String → String → Bool) :
    ∀ (as : List PubAction) (s : List Nat × DB),
      ∀ x ∈ s.1, x ∈ (runPub check s as).1 := by
  intro as
  induction as with
  | nil => intro s x hx; exact hx
  | cons a t ih =>
    intro s x hx
    exact ih (pubStep check s a) x (pubStep_sess_mono check s a x hx)

lemma runPub_profils (check : String → String → Bool) :
    ∀ (as : List PubAction) (s : List Nat × DB),
      (runPub check s as).2.profils = s.2.profils := by
  intro as
  induction as with
  | nil => intro s; rfl
  | cons a t ih =>
    intro s
    rw [show runPub check s (a :: t) = runPub check (pubStep check s a) t from rfl,
        ih (pubStep check s a), pubStep_profils check s a]

lemma runPub_no_view_when_locked (check : String → String → Bool) (p : Profil) :
    ∀ (as : List PubAction) (sess : List Nat) (db : DB),
      p ∈ db.profils → p.is_protected = true →
      (db.profils.map Profil.id).Nodup →
      p.id ∉ (runPub check (sess, db) as).1 →
      analytics_view_count p.id (runPub check (sess, db) as).2 =
        analytics_view_count p.id db := by
  intro as
  induction as with
  | nil => intro sess db _ _ _ _; rfl
  | cons a t ih =>
    intro sess db hmem hprot hnd hfin
    have hsess : p.id ∉ sess := fun hx =>
      hfin (runPub_sess_mono check (a :: t) (sess, db) p.id hx)
    have hrun : runPub check (sess, db) (a :: t)
        = runPub check (pubStep check (sess, db) a) t := rfl
    rw [hrun] at hfin ⊢
    have hprofils : (pubStep check (sess, db) a).2.profils = db.profils :=
      pubStep_profils check (sess, db) a
    have hstep : analytics_view_count p.id (pubStep check (sess, db) a).2
        = analytics_view_count p.id db := by
      cases a with
      | unlock slug pw => rfl
      | access slug =>
        show analytics_view_count p.id (profil_public slug sess db).1 = _
        unfold profil_public
        cases hq : db.profils.find? (fun q => q.slug == slug) with
        | none => rfl
        | some q =>
          simp only []
          split
          · rfl
          · rename_i hcond
            have hqmem : q ∈ db.profils := List.mem_of_find?_eq_some hq
            have hne : q.id ≠ p.id := by
              intro he
              have : q = p := List.inj_on_of_nodup_map hnd hqmem hmem he
              subst this
              rw [hprot] at hcond
              simp only [Bool.true_and, Bool.not_eq_true, Bool.not_eq_true,
                Bool.not_not] at hcond
              exact hsess (by simpa using hcond)
            simp [analytics_view_count, viewEvent, List.filter_append, hne]
    have happ := ih (pubStep check (sess, db) a).1 (pubStep check (sess, db) a).2
      (hprofils ▸ hmem) hprot (hprofils ▸ hnd) hfin
    rw [happ, hstep]

/-- C5: a protected profile that the caller's session has not successfully
unlocked records no view: over any sequence of page views and failed unlock
attempts (the session still lacks the profile's id at the end), the
profile's count of `view` events in the analytics log is unchanged and
every profile row — in particular its `view_count` column — is exactly as
before. -/
theorem protected_profile_never_gains_views (check : String → String → Bool)
    (db : DB) (sess : List Nat) (p : Profil) (as : List PubAction)
    (hmem : p ∈ db.profils) (hprot : p.is_protected = true)
    (hnd : (db.profils.map Profil.id).Nodup)
    (hfin : p.id ∉ (runPub check (sess, db) as).1) :
    analytics_view_count p.id (runPub check (sess, db) as).2 =
      analytics_view_count p.id db ∧
    (runPub check (sess, db) as).2.profils = db.profils :=
  ⟨runPub_no_view_when_locked check p as sess db hmem hprot hnd hfin,
   runPub_profils check as (sess, db)⟩

/-- Witness for C5: a view, a failed unlock and another view of a locked
profile leave its analytics untouched. -/
theorem protected_profile_never_gains_views_witness :
    analytics_view_count 7 (runPub (fun h pw => h == pw) ([], db5)
      [PubAction.access "sec", PubAction.unlock "sec" "wrong",
       PubAction.access "sec"]).2 = analytics_view_count 7 db5 ∧
    (runPub (fun h pw => h == pw) ([], db5)
      [PubAction.access "sec", PubAction.unlock "sec" "wrong",
       PubAction.access "sec"]).2.profils = db5.profils :=
  protected_profile_never_gains_views (fun h pw => h == pw) db5 [] p5
    [PubAction.access "sec", PubAction.unlock "sec" "wrong",
     PubAction.access "sec"]
    (by decide) (by decide) (by decide) (by decide)

/-! ## The view_count column is never written (C10) -/

lemma track_click_profils (lid : Nat) (ip ua : String) (db : DB) :
    ∀ r, track_click lid ip ua db = some r → r.1.profils = db.profils := by
  unfold track_click
  cases h : db.liens.find? (fun l => l.id == lid) with
  | none => intro r hr; exact absurd hr (by simp)
  | some lien =>
    intro r hr
    simp only [Option.some.injEq] at hr
    rw [← hr]

lemma applyOp_view_count (hash : String → String) (op : Op) (db : DB) :
    ∀ q ∈ (applyOp hash op db).profils,
      q.view_count = 0 ∨
        ∃ p ∈ db.profils, q.id = p.id ∧ q.view_count = p.view_count := by
  intro q hq
  cases op with
  | viewPublic slug sess =>
    rw [show (applyOp hash (Op.viewPublic slug sess) db).profils
          = (profil_public slug sess db).1.profils from rfl,
        profil_public_profils] at hq
    exact Or.inr ⟨q, hq, rfl, rfl⟩
  | unlockAttempt slug pw =>
    exact Or.inr ⟨q, hq, rfl, rfl⟩
  | click lid ip ua =>
    rw [show applyOp hash (Op.click lid ip ua) db
          = ((track_click lid ip ua db).map Prod.fst).getD db from rfl] at hq
    cases h : track_click lid ip ua db with
    | none => rw [h] at hq; exact Or.inr ⟨q, hq, rfl, rfl⟩
    | some r =>
      rw [h] at hq
      rw [show ((some r).map Prod.fst).getD db = r.1 from rfl,
          track_click_profils lid ip ua db r h] at hq
      exact Or.inr ⟨q, hq, rfl, rfl⟩
  | createProfil newId form =>
    rw [show (applyOp hash (Op.createProfil newId form) db).profils
          = (create_profil newId form db).1.profils from rfl] at hq
    unfold create_profil at hq
    simp only [] at hq
    split at hq
    · exact Or.inr ⟨q, hq, rfl, rfl⟩
    · split at hq
      · exact Or.inr ⟨q, hq, rfl, rfl⟩
      · split at hq
        · exact Or.inr ⟨q, hq, rfl, rfl⟩
        · split at hq
          · exact Or.inr ⟨q, hq, rfl, rfl⟩
          · rcases List.mem_append.mp hq with hold | hnew
            · exact Or.inr ⟨q, hold, rfl, rfl⟩
            · rw [List.mem_singleton] at hnew
              subst hnew
              exact Or.inl rfl
  | editProfil slug form =>
    rw [show (applyOp hash (Op.editProfil slug form) db).profils
          = (edit_profil slug form db).1.profils from rfl] at hq
    unfold edit_profil at hq
    cases hfind : db.profils.find? (fun p => p.slug == slug) with
    | none => rw [hfind] at hq; exact Or.inr ⟨q, hq, rfl, rfl⟩
    | some p =>
      rw [hfind] at hq
      simp only [] at hq
      split at hq
      · exact Or.inr ⟨q, hq, rfl, rfl⟩
      · split at hq
        · exact Or.inr ⟨q, hq, rfl, rfl⟩
        · obtain ⟨x, hx, hfx⟩ := List.mem_map.mp hq
          by_cases hid : (x.id == p.id) = true
          · rw [if_pos hid] at hfx
            subst hfx
            exact Or.inr ⟨p, List.mem_of_find?_eq_some hfind, rfl, rfl⟩
          · rw [if_neg hid] at hfx
            subst hfx
            exact Or.inr ⟨x, hx, rfl, rfl⟩
  | deleteProfil slug =>
    rw [show applyOp hash (Op.deleteProfil slug) db
          = delete_profil slug db from rfl] at hq
    unfold delete_profil at hq
    cases hfind : db.profils.find? (fun p => p.slug == slug) with
    | none => rw [hfind] at hq; exact Or.inr ⟨q, hq, rfl, rfl⟩
    | some p =>
      rw [hfind] at hq
      exact Or.inr ⟨q, (List.mem_filter.mp hq).1, rfl, rfl⟩
  | addLien pid newId form =>
    have hp : (applyOp hash (Op.addLien pid newId form) db).profils
        = db.profils := by
      show (add_lien pid newId form db).1.profils = db.profils
      unfold add_lien
      cases h : db.profils.find? (fun p => p.id == pid) <;> rfl
    rw [hp] at hq
    exact Or.inr ⟨q, hq, rfl, rfl⟩
  | updateLien lid form =>
    have hp : (applyOp hash (Op.updateLien lid form) db).profils
        = db.profils := by
      show (update_lien lid form db).profils = db.profils
      unfold update_lien
      cases h : db.liens.find? (fun l => l.id == lid) <;> rfl
    rw [hp] at hq
    exact Or.inr ⟨q, hq, rfl, rfl⟩
  | deleteLien lid =>
    exact Or.inr ⟨q, hq, rfl, rfl⟩
  | reorder ids =>
    exact Or.inr ⟨q, hq, rfl, rfl⟩
  | settings slug form =>
    rw [show (applyOp hash (Op.settings slug form) db).profils
          = (parametres_profil hash slug form db).1.profils from rfl] at hq
    unfold parametres_profil at hq
    cases hfind : db.profils.find? (fun p => p.slug == slug) with
    | none => rw [hfind] at hq; exact Or.inr ⟨q, hq, rfl, rfl⟩
    | some p =>
      rw [hfind] at hq
      simp only [] at hq
      obtain ⟨x, hx, hfx⟩ := List.mem_map.mp hq
      by_cases hid : (x.id == p.id) = true
      · rw [if_pos hid] at hfx
        subst hfx
        refine Or.inr ⟨p, List.mem_of_find?_eq_some hfind, ?_, ?_⟩ <;>
          split <;> rfl
      · rw [if_neg hid] at hfx
        subst hfx
        exact Or.inr ⟨x, hx, rfl, rfl⟩

/-- C10: no route ever writes `Profil.view_count`.  Every profile in the
post-state of any request either keeps the `view_count` it had before or is
freshly created with the default 0; consequently, starting from an empty
store, every profile's `view_count` is 0 after any sequence of requests.
(The analytics page's displayed total is `analytics_view_count`, which
counts `view` events instead of reading the column.) -/
theorem view_count_never_incremented (hash : String → String) :
    (∀ op db, ∀ q ∈ (applyOp hash op db).profils,
      q.view_count = 0 ∨
        ∃ p ∈ db.profils, q.id = p.id ∧ q.view_count = p.view_count) ∧
    (∀ ops : List Op,
      ∀ q ∈ (ops.foldl (fun db op => applyOp hash op db) emptyDB).profils,
        q.view_count = 0) := by
  refine ⟨applyOp_view_count hash, ?_⟩
  have main : ∀ (ops : List Op) (db : DB),
      (∀ q ∈ db.profils, q.view_count = 0) →
      ∀ q ∈ (ops.foldl (fun db op => applyOp hash op db) db).profils,
        q.view_count = 0 := by
    intro ops
    induction ops with
    | nil => intro db h q hq; exact h q hq
    | cons op t ih =>
      intro db h q hq
      rw [List.foldl_cons] at hq
      refine ih (applyOp hash op db) ?_ q hq
      intro r hr
      rcases applyOp_view_count hash op db r hr with h0 | ⟨p, hp, _, hvc⟩
      · exact h0
      · rw [hvc]; exact h p hp
  intro ops q hq
  exact main ops emptyDB (fun q hq => absurd hq (by simp [emptyDB])) q hq

/-- Witness for C10: a surviving profile keeps its count across a link
deletion, and a freshly created profile carries count 0. -/
theorem view_count_never_incremented_witness :
    (profilA.view_count = 0 ∨
      ∃ p ∈ db2.profils, profilA.id = p.id ∧
        profilA.view_count = p.view_count) ∧
    createdJane.view_count = 0 :=
  ⟨(view_count_never_incremented (fun s => s)).1 (Op.deleteLien 1) db2
      profilA (by decide),
   (view_count_never_incremented (fun s => s)).2
      [Op.createProfil 5 ⟨"Jane", "", "", "", "", "modern"⟩]
      createdJane (by decide)⟩

end EContactPro
